import Mathlib

/-!
Verification of the PriceHawk ingestion pipeline
(`backend/apps/tracking/views.py`, `backend/apps/tracking/models.py`).

The ingestion endpoint `ingest_avito` is embedded shallowly:

* JSON values are the mutually inductive type `Json` (a parsed Python value;
  `Json.null` plays Python's `None`, which is also what `dict.get` returns
  for an absent key).
* The database is a `Store`: a list of `Ad` rows, a list of `PricePoint`
  rows and a fresh primary-key counter.  The declared schema constraints of
  `models.py` are part of the embedding: the unique constraints
  `(source, external_id)` on `Ad` and `(ad, collected_at, price)` on
  `PricePoint`, and the NOT NULL columns (every field of `Ad` except
  `target`, `price_current`, `posted_at`; every field of `PricePoint`).
* Django's `update_or_create` / `get_or_create` become `Except`-valued
  functions: `.error ()` stands for an uncaught exception
  (`MultipleObjectsReturned`, `IntegrityError`, `AttributeError`, ...)
  which aborts the batch; `transaction.atomic` then discards the partial
  store, which is the `.error` branch of `ingestPayload`.
* `timezone.now()` and the `auto_now` / `auto_now_add` columns are modelled
  by one server-time string parameter `now`.
* The HMAC-SHA256 hex digest and `json.loads` are external library
  functions; the embedding is parametrised over them
  (`hmacHex : String → String → String`, first argument the secret, and
  `jsonLoads : String → Option Json`, `none` standing for
  `json.JSONDecodeError`).
-/

mutual
/-- Parsed JSON value, also used for the Python runtime value it decodes to
(`Json.null` is Python `None`). -/
inductive Json where
  | null
  | bool (b : Bool)
  | num (n : Int)
  | str (s : String)
  | arr (elems : JsonList)
  | obj (fields : JsonFields)
deriving DecidableEq

inductive JsonList where
  | nil
  | cons (hd : Json) (tl : JsonList)
deriving DecidableEq

inductive JsonFields where
  | nil
  | cons (key : String) (val : Json) (tl : JsonFields)
deriving DecidableEq
end

/-- Elements of a JSON array as a Lean list. -/
def JsonList.toList : JsonList → List Json
  | .nil => []
  | .cons x xs => x :: xs.toList

/-- Dictionary lookup (first binding wins; parsed JSON objects have distinct
keys). -/
def JsonFields.lookup : JsonFields → String → Option Json
  | .nil, _ => none
  | .cons k v rest, key => if k = key then some v else rest.lookup key

/-- Python `d.get(k)`: `None` when the key is absent. -/
def jget (fs : JsonFields) (k : String) : Json := (fs.lookup k).getD Json.null

/-- Python `d.get(k, default)`: the default is used only when the key is
absent, an explicit `null` binding is returned as-is. -/
def jgetD (fs : JsonFields) (k : String) (d : Json) : Json := (fs.lookup k).getD d

/-- Python truthiness of a parsed JSON value (`if not ext_id`). -/
def pyTruthy : Json → Bool
  | .null => false
  | .bool b => b
  | .num n => n != 0
  | .str s => s != ""
  | .arr xs => xs != JsonList.nil
  | .obj fs => fs != JsonFields.nil

/-- Keys of a JSON object, as JSON strings (Python iterates a dict by key). -/
def objKeys : JsonFields → List Json
  | .nil => []
  | .cons k _ rest => Json.str k :: objKeys rest

/-- Python `for item in items`: arrays iterate their elements, strings their
one-character substrings, dicts their keys; other values raise `TypeError`
(`none`). -/
def pyIterate : Json → Option (List Json)
  | .arr xs => some xs.toList
  | .str s => some (s.toList.map (fun c => Json.str (String.mk [c])))
  | .obj fs => some (objKeys fs)
  | _ => none

/-- One row of the `Ad` table (`models.py`, class `Ad`).  Values are kept as
the Python values the view passes to the ORM; `last_seen_at` (`auto_now`)
and `created_at` (`auto_now_add`) hold the server time of the save. -/
structure AdRow where
  id : Nat
  source : Json
  external_id : Json
  target_id : Json
  title : Json
  url : Json
  seller_name : Json
  seller_id : Json
  location : Json
  currency : Json
  price_current : Json
  posted_at : Json
  is_active : Json
  last_seen_at : String
  created_at : String
deriving DecidableEq

/-- One row of the `PricePoint` table (`models.py`, class `PricePoint`). -/
structure PPRow where
  ad_id : Nat
  price : Json
  currency : Json
  collected_at : Json
deriving DecidableEq

/-- The durable store: the two tables the ingestion path touches, plus the
next fresh `Ad` primary key. -/
structure Store where
  ads : List AdRow
  pricePoints : List PPRow
  nextAdId : Nat
deriving DecidableEq

/-- The `defaults` dict built in `ingest_avito` (views.py lines 103-114). -/
structure AdDefaults where
  title : Json
  url : Json
  seller_name : Json
  seller_id : Json
  location : Json
  currency : Json
  price_current : Json
  posted_at : Json
  is_active : Json
  target_id : Json
deriving DecidableEq

/-- Construction of the `defaults` dict from one item (views.py 103-114):
`item.get(key, default)` substitutes the default only for absent keys. -/
def itemDefaults (fields : JsonFields) (target_id : Json) : AdDefaults :=
  { title := jgetD fields "title" (Json.str "")
  , url := jgetD fields "url" (Json.str "")
  , seller_name := jgetD fields "seller_name" (Json.str "")
  , seller_id := jgetD fields "seller_id" (Json.str "")
  , location := jgetD fields "location" (Json.str "")
  , currency := jgetD fields "currency" (Json.str "RUB")
  , price_current := jget fields "price"
  , posted_at := jget fields "posted_at"
  , is_active := jgetD fields "is_active" (Json.bool true)
  , target_id := target_id }

/-- NOT NULL check for an `Ad` save (`models.py`: every `Ad` column except
`target`, `price_current` and `posted_at` is declared without `null=True`;
writing `None` to any of the others raises `IntegrityError`). -/
def adSaveOk (source external_id : Json) (d : AdDefaults) : Bool :=
  source != Json.null && external_id != Json.null && d.title != Json.null &&
  d.url != Json.null && d.seller_name != Json.null && d.seller_id != Json.null &&
  d.location != Json.null && d.currency != Json.null && d.is_active != Json.null

/-- Row filter of `Ad.objects` on the dedup key (views.py 115-117 filters on
`source=source, external_id=ext_id`). -/
def keyMatches (source external_id : Json) (a : AdRow) : Bool :=
  a.source == source && a.external_id == external_id

/-- All `Ad` rows matching a dedup key. -/
def findKey (st : Store) (source external_id : Json) : List AdRow :=
  st.ads.filter (keyMatches source external_id)

/-- Number of `Ad` rows matching a dedup key. -/
def adCount (st : Store) (source external_id : Json) : Nat :=
  (findKey st source external_id).length

/-- The field writes `update_or_create` performs on an existing row: every
entry of the `defaults` dict is assigned, and `auto_now` refreshes
`last_seen_at`; `id`, `source`, `external_id`, `created_at` are untouched. -/
def applyDefaults (a : AdRow) (d : AdDefaults) (now : String) : AdRow :=
  { a with title := d.title, url := d.url, seller_name := d.seller_name
         , seller_id := d.seller_id, location := d.location, currency := d.currency
         , price_current := d.price_current, posted_at := d.posted_at
         , is_active := d.is_active, target_id := d.target_id
         , last_seen_at := now }

/-- Freshly inserted `Ad` row: every field from the `defaults` dict plus the
key pair, `auto_now_add` setting `created_at` and `auto_now` setting
`last_seen_at` to the server time of the save. -/
def newAdRow (id : Nat) (source external_id : Json) (d : AdDefaults) (now : String) : AdRow :=
  { id := id, source := source, external_id := external_id, target_id := d.target_id
  , title := d.title, url := d.url, seller_name := d.seller_name, seller_id := d.seller_id
  , location := d.location, currency := d.currency, price_current := d.price_current
  , posted_at := d.posted_at, is_active := d.is_active, last_seen_at := now
  , created_at := now }

/-- Django `Ad.objects.update_or_create(source=..., external_id=...,
defaults=...)` (views.py 115-117): get by the key — zero matches create,
one match update, several raise `MultipleObjectsReturned`; the save fails
on a NOT NULL violation.  Returns the row's primary key and `is_created`. -/
def update_or_create (st : Store) (source external_id : Json) (d : AdDefaults)
    (now : String) : Except Unit (Store × Nat × Bool) :=
  match findKey st source external_id with
  | [a] =>
      if adSaveOk source external_id d then
        .ok ({ st with ads := st.ads.map (fun b =>
                 if keyMatches source external_id b then applyDefaults b d now else b) },
             a.id, false)
      else .error ()
  | [] =>
      if adSaveOk source external_id d then
        .ok ({ st with
                ads := st.ads ++ [newAdRow st.nextAdId source external_id d now]
                , nextAdId := st.nextAdId + 1 },
             st.nextAdId, true)
      else .error ()
  | _ => .error ()

/-- Row filter of `PricePoint.objects` on all four `get_or_create` kwargs
(views.py 122-127). -/
def ppFullMatch (ad_id : Nat) (price currency collected_at : Json) (r : PPRow) : Bool :=
  r.ad_id == ad_id && r.price == price && r.currency == currency &&
  r.collected_at == collected_at

/-- Row filter on the declared unique constraint `(ad, collected_at, price)`
(`models.py`, `PricePoint.Meta`). -/
def ppTripleMatch (ad_id : Nat) (collected_at price : Json) (r : PPRow) : Bool :=
  r.ad_id == ad_id && r.collected_at == collected_at && r.price == price

/-- Django `PricePoint.objects.get_or_create(ad=..., price=..., currency=...,
collected_at=...)` (views.py 122-127): get on all four kwargs — one match
is a no-op, several raise; zero matches insert, which raises
`IntegrityError` on a NOT NULL violation or when the inserted row collides
with the `(ad, collected_at, price)` unique constraint (a row with the same
triple but a different currency). -/
def get_or_create_price_point (st : Store) (ad_id : Nat)
    (price currency collected_at : Json) : Except Unit (Store × Bool) :=
  match st.pricePoints.filter (ppFullMatch ad_id price currency collected_at) with
  | [_] => .ok (st, false)
  | [] =>
      if price == Json.null || currency == Json.null || collected_at == Json.null then
        .error ()
      else if st.pricePoints.any (ppTripleMatch ad_id collected_at price) then
        .error ()
      else
        .ok ({ st with pricePoints := st.pricePoints ++
                 [PPRow.mk ad_id price currency collected_at] },
             true)
  | _ => .error ()

/-- Loop body of `ingest_avito` for one item (views.py 99-128): skip on falsy
`external_id`, upsert the `Ad`, and when `item.get("price") is not None`
insert-if-absent the `PricePoint` and count the attempt.  A non-dict item
raises `AttributeError` on `.get`. -/
def processItem (source target_id fetched_at : Json) (now : String) (st : Store)
    (item : Json) (created updated price_points : Nat) :
    Except Unit (Store × Nat × Nat × Nat) :=
  match item with
  | .obj fields =>
      let ext := jget fields "external_id"
      if pyTruthy ext then
        match update_or_create st source ext (itemDefaults fields target_id) now with
        | .error e => .error e
        | .ok (st1, adId, is_created) =>
            let created1 := created + (if is_created then 1 else 0)
            let updated1 := updated + (if is_created then 0 else 1)
            if jget fields "price" != Json.null then
              match get_or_create_price_point st1 adId (jget fields "price")
                      (jgetD fields "currency" (Json.str "RUB")) fetched_at with
              | .error e => .error e
              | .ok (st2, _) => .ok (st2, created1, updated1, price_points + 1)
            else .ok (st1, created1, updated1, price_points)
      else .ok (st, created, updated, price_points)
  | _ => .error ()

/-- The item loop of `ingest_avito` (views.py 99-128), threading the store
and the three counters; the first uncaught exception aborts. -/
def processItems (source target_id fetched_at : Json) (now : String) :
    List Json → Store → Nat → Nat → Nat → Except Unit (Store × Nat × Nat × Nat)
  | [], st, c, u, p => .ok (st, c, u, p)
  | item :: rest, st, c, u, p =>
      match processItem source target_id fetched_at now st item c u p with
      | .error e => .error e
      | .ok (st1, c1, u1, p1) => processItems source target_id fetched_at now rest st1 c1 u1 p1

/-- HTTP response of the ingestion view: 202 with the three counters, 401
`Invalid signature`, 400 `Invalid JSON`, or an unhandled server error. -/
inductive Resp where
  | accepted (created updated price_points : Nat)
  | invalidSignature
  | invalidJson
  | serverError
deriving DecidableEq

/-- Post-authentication, post-parse part of `ingest_avito` (views.py 92-138):
field extraction from the payload dict, `timezone.now()` substitution for a
falsy `fetched_at`, the item loop inside `transaction.atomic()` (an
uncaught exception rolls the whole batch back and the store is unchanged),
and the 202 response.  A non-dict payload raises `AttributeError` on
`payload.get`. -/
def ingestPayload (payload : Json) (now : String) (st : Store) : Resp × Store :=
  match payload with
  | .obj kvs =>
      let items := jgetD kvs "items" (Json.arr JsonList.nil)
      let source := jgetD kvs "source" (Json.str "avito")
      let target_id := jget kvs "target_id"
      let fetched_at :=
        if pyTruthy (jget kvs "fetched_at") then jget kvs "fetched_at" else Json.str now
      match pyIterate items with
      | none => (Resp.serverError, st)
      | some xs =>
          match processItems source target_id fetched_at now xs st 0 0 0 with
          | .error _ => (Resp.serverError, st)
          | .ok (st1, c, u, p) => (Resp.accepted c u p, st1)
  | _ => (Resp.serverError, st)

/-- Embedding of `_valid_signature` (views.py 60-65): an empty signature is
rejected outright, otherwise the hex HMAC-SHA256 digest of the raw body
under the secret is compared (constant-time in the source) with the header
value. -/
def valid_signature (hmacHex : String → String → String)
    (raw signature secret : String) : Bool :=
  if signature = "" then false
  else hmacHex secret raw == signature

/-- Embedding of the whole view `ingest_avito` (views.py 68-138),
parametrised over the HMAC digest function and `json.loads`.  `secret` is
`settings.INGEST_HMAC_SECRET` (absent or any value), `sigHeader` the
`X-Signature` header (absent defaults to `""`), `raw` the raw request
body. -/
def ingest_avito (hmacHex : String → String → String)
    (jsonLoads : String → Option Json) (secret : Option String)
    (sigHeader : Option String) (raw : String) (now : String) (st : Store) :
    Resp × Store :=
  let signature := sigHeader.getD ""
  let secretTruthy := match secret with
    | none => false
    | some s => s != ""
  if !secretTruthy || !valid_signature hmacHex raw signature (secret.getD "") then
    (Resp.invalidSignature, st)
  else
    match jsonLoads raw with
    | none => (Resp.invalidJson, st)
    | some payload => ingestPayload payload now st

/-- External identifier of an item, as the loop reads it (views.py 100). -/
def extOf (x : Json) : Json :=
  match x with
  | .obj fs => jget fs "external_id"
  | _ => Json.null

/-- Price of an item, as the loop reads it (views.py 110, 121, 124). -/
def priceOf (x : Json) : Json :=
  match x with
  | .obj fs => jget fs "price"
  | _ => Json.null

/-- Currency of an item, as the ledger call reads it (views.py 125). -/
def currencyOf (x : Json) : Json :=
  match x with
  | .obj fs => jgetD fs "currency" (Json.str "RUB")
  | _ => Json.null

/-- Number of items the loop processes (truthy `external_id`). -/
def processedCount (xs : List Json) : Nat :=
  (xs.filter (fun x => pyTruthy (extOf x))).length

/-- Number of items eligible for a ledger append: processed and with a
non-null price. -/
def eligCount (xs : List Json) : Nat :=
  (xs.filter (fun x => pyTruthy (extOf x) && priceOf x != Json.null)).length

/-- Items whose `external_id` is a nonempty string (the spec's notion of a
carried identity; for string-typed ids this coincides with truthiness). -/
def hasNonemptyStrId (x : Json) : Bool :=
  match extOf x with
  | .str s => s != ""
  | _ => false

/-- Number of distinct `external_id` values among the processed items of a
batch that have no pre-existing `Ad` row under the batch source. -/
def newKeyCount (st : Store) (s : Json) (xs : List Json) : Nat :=
  (((xs.filter (fun x => pyTruthy (extOf x))).map extOf).dedup.filter
    (fun e => adCount st s e == 0)).length

/-- The empty store. -/
def store0 : Store := { ads := [], pricePoints := [], nextAdId := 0 }

/-- Concrete `Ad` row used to exercise the reconcile path. -/
def adA : AdRow :=
  { id := 3, source := Json.str "avito", external_id := Json.str "7"
  , target_id := Json.num 1, title := Json.str "Old", url := Json.str "u"
  , seller_name := Json.str "", seller_id := Json.str "", location := Json.str ""
  , currency := Json.str "RUB", price_current := Json.num 5, posted_at := Json.null
  , is_active := Json.bool true, last_seen_at := "t0", created_at := "t0" }

/-- Store holding just `adA`. -/
def stA : Store := { ads := [adA], pricePoints := [], nextAdId := 4 }

/-- Concrete `defaults` dict used to exercise the reconcile path. -/
def dA : AdDefaults :=
  { title := Json.str "New", url := Json.str "u2", seller_name := Json.str "s"
  , seller_id := Json.str "sid", location := Json.str "loc"
  , currency := Json.str "USD", price_current := Json.num 6, posted_at := Json.null
  , is_active := Json.bool false, target_id := Json.num 2 }

/-- Store holding `adA` plus a price point for it whose currency is `USD`
but whose `(ad, collected_at, price)` triple is `(3, "T", 500)`. -/
def stCex : Store :=
  { ads := [adA]
  , pricePoints := [PPRow.mk 3 (Json.num 500) (Json.str "USD") (Json.str "T")]
  , nextAdId := 4 }

/-- Batch resubmitting the `(3, "T", 500)` observation with the default
currency `RUB`. -/
def payCex : Json :=
  Json.obj (JsonFields.cons "items"
    (Json.arr (JsonList.cons
      (Json.obj (JsonFields.cons "external_id" (Json.str "7")
        (JsonFields.cons "price" (Json.num 500) JsonFields.nil)))
      JsonList.nil))
    (JsonFields.cons "fetched_at" (Json.str "T") JsonFields.nil))

/-- Fields of the end-to-end example item of the spec (external_id "123",
title "Chair", price 500, currency "RUB"). -/
def itemP1 : JsonFields :=
  JsonFields.cons "external_id" (Json.str "123")
    (JsonFields.cons "title" (Json.str "Chair")
      (JsonFields.cons "price" (Json.num 500)
        (JsonFields.cons "currency" (Json.str "RUB") JsonFields.nil)))

/-- Fields of the end-to-end example payload of the spec. -/
def kvsP1 : JsonFields :=
  JsonFields.cons "items" (Json.arr (JsonList.cons (Json.obj itemP1) JsonList.nil))
    (JsonFields.cons "target_id" (Json.num 7)
      (JsonFields.cons "fetched_at" (Json.str "2024-01-01T00:00:00Z") JsonFields.nil))

/-- The end-to-end example payload of the spec (one item, explicit
`fetched_at`). -/
def pay1 : Json := Json.obj kvsP1

/-- Readiness of an item for an idempotent replay against a store: the item
is a dict with truthy `external_id`, its field values pass the NOT NULL
checks, the store holds exactly one `Ad` under the item's key, and — when
the item carries a price — exactly one ledger row with the item's four
ledger column values for that row's primary key. -/
def readyItem (s tid f : Json) (T : Store) (x : Json) : Prop :=
  ∃ fs a, x = Json.obj fs ∧ pyTruthy (jget fs "external_id") = true ∧
    adSaveOk s (jget fs "external_id") (itemDefaults fs tid) = true ∧
    findKey T s (jget fs "external_id") = [a] ∧
    (jget fs "price" ≠ Json.null →
      (T.pricePoints.filter (ppFullMatch a.id (jget fs "price")
        (jgetD fs "currency" (Json.str "RUB")) f)).length = 1)

/-- Payload with one item carrying an explicit `"currency": null`. -/
def pay3 : Json :=
  Json.obj (JsonFields.cons "items"
    (Json.arr (JsonList.cons
      (Json.obj (JsonFields.cons "external_id" (Json.str "9")
        (JsonFields.cons "currency" Json.null JsonFields.nil)))
      JsonList.nil)) JsonFields.nil)

section Helpers

/-- Updating a row does not change its primary key. -/
theorem applyDefaults_id (a : AdRow) (d : AdDefaults) (now : String) :
    (applyDefaults a d now).id = a.id := rfl

/-- Updating a row does not change its dedup key. -/
theorem keyMatches_applyDefaults (s e : Json) (a : AdRow) (d : AdDefaults) (now : String) :
    keyMatches s e (applyDefaults a d now) = keyMatches s e a := rfl

/-- Case analysis of a successful `update_or_create`. -/
theorem uoc_ok_cases {st : Store} {s e : Json} {d : AdDefaults} {now : String}
    {st' : Store} {i : Nat} {b : Bool}
    (h : update_or_create st s e d now = .ok (st', i, b)) :
    adSaveOk s e d = true ∧
    ((∃ a, findKey st s e = [a] ∧ i = a.id ∧ b = false ∧
        st' = { st with ads := st.ads.map (fun x =>
                 if keyMatches s e x then applyDefaults x d now else x) }) ∨
     (findKey st s e = [] ∧ i = st.nextAdId ∧ b = true ∧
        st' = { st with
                ads := st.ads ++ [newAdRow st.nextAdId s e d now]
                , nextAdId := st.nextAdId + 1 })) := by
  unfold update_or_create at h
  rcases hfk : findKey st s e with _ | ⟨a, _ | ⟨a2, rest⟩⟩ <;> rw [hfk] at h <;>
    by_cases hsv : adSaveOk s e d = true <;> simp [hsv] at h
  · exact ⟨hsv, Or.inr ⟨rfl, h.2.1.symm, h.2.2, h.1.symm⟩⟩
  · exact ⟨hsv, Or.inl ⟨a, rfl, h.2.1.symm, h.2.2, h.1.symm⟩⟩

/-- A successful upsert leaves the price-point table untouched. -/
theorem uoc_pricePoints {st : Store} {s e : Json} {d : AdDefaults} {now : String}
    {st' : Store} {i : Nat} {b : Bool}
    (h : update_or_create st s e d now = .ok (st', i, b)) :
    st'.pricePoints = st.pricePoints := by
  rcases uoc_ok_cases h with ⟨-, ⟨a, -, -, -, hst⟩ | ⟨-, -, -, hst⟩⟩ <;> subst hst <;> rfl

/-- Key lookups in an updated store factor through the update map. -/
theorem findKey_map_update (st : Store) (s e s' e' : Json) (d : AdDefaults) (now : String) :
    findKey { st with ads := st.ads.map (fun x =>
        if keyMatches s e x then applyDefaults x d now else x) } s' e'
      = (findKey st s' e').map (fun x =>
          if keyMatches s e x then applyDefaults x d now else x) := by
  unfold findKey
  show (st.ads.map _).filter _ = _
  rw [List.filter_map]
  congr 1
  apply List.filter_congr
  intro a _
  by_cases hk : keyMatches s e a = true <;> simp [hk, keyMatches_applyDefaults]

/-- Key lookups in a store with one appended row. -/
theorem findKey_append (st : Store) (r : AdRow) (n : Nat) (s' e' : Json) :
    findKey { st with ads := st.ads ++ [r], nextAdId := n } s' e'
      = findKey st s' e' ++ (if keyMatches s' e' r then [r] else []) := by
  unfold findKey
  show (st.ads ++ [r]).filter _ = _
  rw [List.filter_append]
  by_cases hk : keyMatches s' e' r = true <;> simp [hk]

/-- The update map of `update_or_create` never changes a row's primary key. -/
theorem updateMap_id (s e : Json) (d : AdDefaults) (now : String) (x : AdRow) :
    (if keyMatches s e x then applyDefaults x d now else x).id = x.id := by
  by_cases hk : keyMatches s e x = true <;> simp [hk, applyDefaults_id]

/-- A successful upsert changes the number of rows under any dedup key by one
exactly when it created a row under that same key. -/
theorem uoc_adCount {st : Store} {s e : Json} {d : AdDefaults} {now : String}
    {st' : Store} {i : Nat} {b : Bool}
    (h : update_or_create st s e d now = .ok (st', i, b)) (s' e' : Json) :
    adCount st' s' e' = adCount st s' e' +
      (if b = true ∧ s' = s ∧ e' = e then 1 else 0) := by
  rcases uoc_ok_cases h with ⟨-, ⟨a, hfk, -, hb, hst⟩ | ⟨hfk, -, hb, hst⟩⟩ <;> subst hst
  · subst hb
    unfold adCount
    rw [findKey_map_update]
    simp
  · subst hb
    unfold adCount
    rw [findKey_append]
    by_cases hs : s' = s
    · by_cases he : e' = e
      · subst hs; subst he
        simp [keyMatches, newAdRow]
      · have he2 : ¬e = e' := fun hh => he hh.symm
        simp [keyMatches, newAdRow, hs, he, he2]
    · have hs2 : ¬s = s' := fun hh => hs hh.symm
      simp [keyMatches, newAdRow, hs, hs2]

/-- A successful upsert preserves any singleton key lookup, including the
row's primary key. -/
theorem uoc_singleton_pres {st : Store} {s e : Json} {d : AdDefaults} {now : String}
    {st' : Store} {i : Nat} {b : Bool}
    (h : update_or_create st s e d now = .ok (st', i, b)) {s' e' : Json} {x : AdRow}
    (hx : findKey st s' e' = [x]) :
    ∃ x', findKey st' s' e' = [x'] ∧ x'.id = x.id := by
  rcases uoc_ok_cases h with ⟨-, ⟨a, hfk, -, -, hst⟩ | ⟨hfk, -, -, hst⟩⟩ <;> subst hst
  · rw [findKey_map_update, hx]
    exact ⟨_, rfl, updateMap_id s e d now x⟩
  · rw [findKey_append, hx]
    by_cases hk : keyMatches s' e' (newAdRow st.nextAdId s e d now) = true
    · exfalso
      have hs : s = s' ∧ e = e' := by
        simpa [keyMatches, newAdRow, beq_iff_eq] using hk
      rw [← hs.1, ← hs.2, hfk] at hx
      cases hx
    · exact ⟨x, by simp [hk], rfl⟩

/-- A successful upsert leaves a singleton lookup under its own key. -/
theorem uoc_findKey_self {st : Store} {s e : Json} {d : AdDefaults} {now : String}
    {st' : Store} {i : Nat} {b : Bool}
    (h : update_or_create st s e d now = .ok (st', i, b)) :
    ∃ a, findKey st' s e = [a] ∧ a.id = i := by
  rcases uoc_ok_cases h with ⟨-, ⟨a, hfk, hi, -, hst⟩ | ⟨hfk, hi, -, hst⟩⟩ <;> subst hst
  · rw [findKey_map_update, hfk]
    refine ⟨_, rfl, ?_⟩
    rw [updateMap_id s e d now a, hi]
  · rw [findKey_append, hfk]
    have hk : keyMatches s e (newAdRow st.nextAdId s e d now) = true := by
      simp [keyMatches, newAdRow]
    refine ⟨newAdRow st.nextAdId s e d now, ?_, hi.symm⟩
    simp [hk]

/-- Case analysis of a successful `get_or_create_price_point`. -/
theorem goc_ok_cases {st : Store} {i : Nat} {p cu t : Json} {st' : Store} {b : Bool}
    (h : get_or_create_price_point st i p cu t = .ok (st', b)) :
    (b = false ∧ st' = st ∧
      (st.pricePoints.filter (ppFullMatch i p cu t)).length = 1) ∨
    (b = true ∧
      st' = { st with pricePoints := st.pricePoints ++ [PPRow.mk i p cu t] } ∧
      st.pricePoints.filter (ppFullMatch i p cu t) = [] ∧
      st.pricePoints.any (ppTripleMatch i t p) = false) := by
  unfold get_or_create_price_point at h
  rcases hf : st.pricePoints.filter (ppFullMatch i p cu t) with _ | ⟨r, _ | ⟨r2, rest⟩⟩ <;>
    rw [hf] at h
  · by_cases hnull : (p == Json.null || cu == Json.null || t == Json.null) = true
    · rw [if_pos hnull] at h; cases h
    · rw [if_neg hnull] at h
      by_cases htr : st.pricePoints.any (ppTripleMatch i t p) = true
      · rw [if_pos htr] at h; cases h
      · rw [if_neg htr] at h
        cases h
        exact Or.inr ⟨rfl, rfl, rfl, by simpa using htr⟩
  · cases h
    exact Or.inl ⟨rfl, rfl, by rfl⟩
  · cases h

/-- A successful ledger call leaves the `Ad` table and the key counter
untouched. -/
theorem goc_ads {st : Store} {i : Nat} {p cu t : Json} {st' : Store} {b : Bool}
    (h : get_or_create_price_point st i p cu t = .ok (st', b)) :
    st'.ads = st.ads ∧ st'.nextAdId = st.nextAdId := by
  rcases goc_ok_cases h with ⟨-, hst, -⟩ | ⟨-, hst, -⟩ <;> subst hst <;> exact ⟨rfl, rfl⟩

/-- The inserted row matches its own four-column filter. -/
theorem ppFullMatch_self (i : Nat) (p cu t : Json) :
    ppFullMatch i p cu t (PPRow.mk i p cu t) = true := by
  simp [ppFullMatch]

/-- After a successful ledger call there is exactly one row with the four
requested column values. -/
theorem goc_full_one {st : Store} {i : Nat} {p cu t : Json} {st' : Store} {b : Bool}
    (h : get_or_create_price_point st i p cu t = .ok (st', b)) :
    (st'.pricePoints.filter (ppFullMatch i p cu t)).length = 1 := by
  rcases goc_ok_cases h with ⟨-, hst, hlen⟩ | ⟨-, hst, hemp, -⟩ <;> subst hst
  · exact hlen
  · show ((st.pricePoints ++ [PPRow.mk i p cu t]).filter _).length = 1
    rw [List.filter_append, hemp]
    simp [ppFullMatch_self]

/-- A successful ledger call preserves uniqueness of any other existing
four-column combination. -/
theorem goc_preserve_full_one {st : Store} {i : Nat} {p cu t : Json} {st' : Store}
    {b : Bool} (h : get_or_create_price_point st i p cu t = .ok (st', b))
    {i' : Nat} {p' cu' t' : Json}
    (h1 : (st.pricePoints.filter (ppFullMatch i' p' cu' t')).length = 1) :
    (st'.pricePoints.filter (ppFullMatch i' p' cu' t')).length = 1 := by
  rcases goc_ok_cases h with ⟨-, hst, -⟩ | ⟨-, hst, hemp, -⟩ <;> subst hst
  · exact h1
  · show ((st.pricePoints ++ [PPRow.mk i p cu t]).filter _).length = 1
    rw [List.filter_append]
    by_cases hm : ppFullMatch i' p' cu' t' (PPRow.mk i p cu t) = true
    · exfalso
      have hm2 := hm
      simp only [ppFullMatch, Bool.and_eq_true, beq_iff_eq] at hm2
      obtain ⟨⟨⟨hi, hp⟩, hcu⟩, ht⟩ := hm2
      rw [← hi, ← hp, ← hcu, ← ht, hemp] at h1
      simp at h1
    · simp [hm, h1]

/-- An item with falsy `external_id` is a successful no-op of the loop body
(`continue` in views.py 101-102). -/
theorem processItem_skip {fs : JsonFields}
    (hext : pyTruthy (jget fs "external_id") = false)
    (s tid f : Json) (now : String) (st : Store) (c u p : Nat) :
    processItem s tid f now st (.obj fs) c u p = .ok (st, c, u, p) := by
  simp [processItem, hext]

/-- Inversion of a successful loop body on a processed item: the upsert
succeeded, the created/updated counters moved by its `is_created` flag, and
the ledger call ran exactly when the price was non-null. -/
theorem processItem_ok_inv {s tid f : Json} {now : String} {st : Store}
    {fs : JsonFields} {c u p : Nat} {st2 : Store} {c' u' p' : Nat}
    (hext : pyTruthy (jget fs "external_id") = true)
    (h : processItem s tid f now st (.obj fs) c u p = .ok (st2, c', u', p')) :
    ∃ st1 adId isC,
      update_or_create st s (jget fs "external_id") (itemDefaults fs tid) now
        = .ok (st1, adId, isC) ∧
      c' = c + (if isC then 1 else 0) ∧ u' = u + (if isC then 0 else 1) ∧
      ((jget fs "price" = Json.null ∧ st2 = st1 ∧ p' = p) ∨
       (jget fs "price" ≠ Json.null ∧ p' = p + 1 ∧
        ∃ b2, get_or_create_price_point st1 adId (jget fs "price")
                (jgetD fs "currency" (Json.str "RUB")) f = .ok (st2, b2))) := by
  simp only [processItem, hext, if_true] at h
  rcases huoc : update_or_create st s (jget fs "external_id") (itemDefaults fs tid) now
    with e | ⟨st1, adId, isC⟩ <;> rw [huoc] at h
  · cases h
  · by_cases hpr : jget fs "price" = Json.null
    · simp only [hpr, bne_self_eq_false, Bool.false_eq_true, if_false] at h
      simp at h
      obtain ⟨hst, hc, hu, hp2⟩ := h
      exact ⟨st1, adId, isC, rfl, hc.symm, hu.symm, Or.inl ⟨hpr, hst.symm, hp2.symm⟩⟩
    · have hbne : (jget fs "price" != Json.null) = true := by
        simpa [bne_iff_ne] using hpr
      rw [hbne] at h
      simp only [if_true] at h
      rcases hgoc : get_or_create_price_point st1 adId (jget fs "price")
          (jgetD fs "currency" (Json.str "RUB")) f with e2 | ⟨st3, b3⟩ <;>
        rw [hgoc] at h
      · cases h
      · cases h
        exact ⟨st1, adId, isC, rfl, rfl, rfl, Or.inr ⟨hpr, rfl, ⟨b3, hgoc⟩⟩⟩

end Helpers

section ClaimC2

/-- C2: Authentication gate with no side effects.  If the server secret is
missing (unset or empty — Python `not secret`), or the signature header is
missing/empty, or the header does not equal the hex HMAC-SHA256 of the raw
body under the secret, the view answers 401 `Invalid signature` and the
store is unchanged.  The conclusion holds for every `jsonLoads` function,
which expresses that the body is never parsed. -/
theorem claim_auth_gate (hmacHex : String → String → String)
    (jsonLoads : String → Option Json) (secret : Option String)
    (sigHeader : Option String) (raw : String) (now : String) (st : Store)
    (hfail : secret = none ∨ secret = some "" ∨ sigHeader.getD "" = "" ∨
      (∀ s, secret = some s → sigHeader.getD "" ≠ hmacHex s raw)) :
    ingest_avito hmacHex jsonLoads secret sigHeader raw now st
      = (Resp.invalidSignature, st) := by
  rcases secret with _ | s
  · simp [ingest_avito]
  · rcases hfail with h | h | h | h
    · cases h
    · have hs : s = "" := by injection h
      subst hs
      simp [ingest_avito]
    · by_cases hs : s = ""
      · subst hs; simp [ingest_avito]
      · simp [ingest_avito, valid_signature, h, hs]
    · have h2 := h s rfl
      by_cases hs : s = ""
      · subst hs; simp [ingest_avito]
      · by_cases hsig : sigHeader.getD "" = ""
        · simp [ingest_avito, valid_signature, hsig, hs]
        · have hne : (hmacHex s raw == sigHeader.getD "") = false := by
            simp only [beq_eq_false_iff_ne, ne_eq]
            exact fun hh => h2 hh.symm
          simp [ingest_avito, valid_signature, hsig, hs, hne]

/-- Witness for C2 at a concrete input: mismatching signature. -/
theorem claim_auth_gate_witness :
    ingest_avito (fun _ _ => "d") (fun _ => none) (some "k") (some "x") "b" "t" store0
      = (Resp.invalidSignature, store0) :=
  claim_auth_gate (fun _ _ => "d") (fun _ => none) (some "k") (some "x") "b" "t" store0
    (Or.inr (Or.inr (Or.inr (fun s hs => by
      have h3 : s = "k" := by injection hs with h4; exact h4.symm
      subst h3
      decide))))

end ClaimC2

section ClaimC5

/-- C5 counterexample: a correctly signed request whose body is the valid
JSON text for an empty array (not an object).  The claim predicts HTTP 400
`Invalid JSON`; the code calls `payload.get` on a list, which raises
`AttributeError`, an unhandled server error — not the 400 response.
The `jsonLoads` instantiation reflects `json.loads` at this input
(an empty-array body parses to an empty list) and the `hmacHex`
instantiation makes the supplied signature the valid one. -/
theorem claim_malformed_cex :
    (ingest_avito (fun _ _ => "sig")
        (fun s => if s = "not an obj" then some (Json.arr JsonList.nil) else none)
        (some "k") (some "sig") "not an obj" "t" store0).1 = Resp.serverError ∧
    Resp.serverError ≠ Resp.invalidJson := by
  constructor
  · rfl
  · decide

/-- C5 amended: for a correctly signed request (nonempty secret, signature
header equal to the — nonempty — hex digest of the raw body), a body that
fails to parse yields HTTP 400 `Invalid JSON` with the store unchanged,
while a body that parses to a non-object value raises an unhandled error
(HTTP 500), also with the store unchanged; only the unparsable case gets
the 400 `Invalid JSON` response. -/
theorem claim_malformed_amended (hmacHex : String → String → String)
    (jsonLoads : String → Option Json) (s : String) (sigHeader : Option String)
    (raw : String) (now : String) (st : Store)
    (hs : s ≠ "") (hsig : sigHeader.getD "" = hmacHex s raw)
    (hdig : hmacHex s raw ≠ "") :
    (jsonLoads raw = none →
      ingest_avito hmacHex jsonLoads (some s) sigHeader raw now st
        = (Resp.invalidJson, st)) ∧
    (∀ j, jsonLoads raw = some j → (∀ kvs, j ≠ Json.obj kvs) →
      ingest_avito hmacHex jsonLoads (some s) sigHeader raw now st
        = (Resp.serverError, st)) := by
  have hsigne : sigHeader.getD "" ≠ "" := by rw [hsig]; exact hdig
  have hvalid : valid_signature hmacHex raw (sigHeader.getD "") s = true := by
    simp [valid_signature, hsigne, hsig, hdig]
  constructor
  · intro hnone
    simp [ingest_avito, hs, hvalid, hnone]
  · intro j hsome hobj
    cases j with
    | obj kvs => exact absurd rfl (hobj kvs)
    | null => simp [ingest_avito, hs, hvalid, hsome, ingestPayload]
    | bool b => simp [ingest_avito, hs, hvalid, hsome, ingestPayload]
    | num n => simp [ingest_avito, hs, hvalid, hsome, ingestPayload]
    | str s2 => simp [ingest_avito, hs, hvalid, hsome, ingestPayload]
    | arr xs => simp [ingest_avito, hs, hvalid, hsome, ingestPayload]

/-- Witness for C5 amended at concrete inputs: an unparsable body gets 400,
and the empty-array body gets the unhandled server error. -/
theorem claim_malformed_amended_witness :
    ingest_avito (fun _ _ => "sig") (fun _ => none)
        (some "k") (some "sig") "bad body" "t" store0 = (Resp.invalidJson, store0) ∧
    ingest_avito (fun _ _ => "sig") (fun _ => some (Json.arr JsonList.nil))
        (some "k") (some "sig") "not an obj" "t" store0 = (Resp.serverError, store0) :=
  ⟨(claim_malformed_amended (fun _ _ => "sig") (fun _ => none) "k" (some "sig")
      "bad body" "t" store0 (by decide) rfl (by decide)).1 rfl,
   (claim_malformed_amended (fun _ _ => "sig") (fun _ => some (Json.arr JsonList.nil))
      "k" (some "sig") "not an obj" "t" store0 (by decide) rfl (by decide)).2
     (Json.arr JsonList.nil) rfl (fun kvs h => by cases h)⟩

end ClaimC5

section ClaimC6

/-- C6: Skip on missing identity.  Removing an item with an absent or empty
`external_id` from anywhere in a batch leaves the run of the item loop
entirely unchanged — same final store (no Ad, no PricePoint from it), same
three counters, same success or failure; in particular the skipped item can
never fail the batch. -/
theorem claim_skip_identity (s tid f : Json) (now : String) (st : Store)
    (xs ys : List Json) (c u p : Nat) (fs : JsonFields)
    (hext : jget fs "external_id" = Json.null ∨ jget fs "external_id" = Json.str "") :
    processItems s tid f now (xs ++ Json.obj fs :: ys) st c u p
      = processItems s tid f now (xs ++ ys) st c u p := by
  have hfal : pyTruthy (jget fs "external_id") = false := by
    rcases hext with h | h <;> rw [h] <;> rfl
  induction xs generalizing st c u p with
  | nil =>
      simp [processItems, processItem_skip hfal]
  | cons x xs ih =>
      simp only [List.cons_append, processItems]
      cases hpi : processItem s tid f now st x c u p with
      | error e => rfl
      | ok r =>
          obtain ⟨st1, c1, u1, p1⟩ := r
          exact ih st1 c1 u1 p1

/-- Witness for C6 at a concrete input: a batch of one priced item plus one
item with empty `external_id` runs exactly like the batch without it. -/
theorem claim_skip_identity_witness :
    processItems (Json.str "avito") Json.null (Json.str "T") "t0"
        [Json.obj (JsonFields.cons "external_id" (Json.str "1")
           (JsonFields.cons "price" (Json.num 5) JsonFields.nil)),
         Json.obj (JsonFields.cons "external_id" (Json.str "") JsonFields.nil)]
        store0 0 0 0
      = processItems (Json.str "avito") Json.null (Json.str "T") "t0"
        [Json.obj (JsonFields.cons "external_id" (Json.str "1")
           (JsonFields.cons "price" (Json.num 5) JsonFields.nil))]
        store0 0 0 0 := by
  have h := claim_skip_identity (Json.str "avito") Json.null (Json.str "T") "t0"
    store0
    [Json.obj (JsonFields.cons "external_id" (Json.str "1")
       (JsonFields.cons "price" (Json.num 5) JsonFields.nil))]
    [] 0 0 0 (JsonFields.cons "external_id" (Json.str "") JsonFields.nil)
    (Or.inr rfl)
  simpa using h

end ClaimC6

section ClaimC3

/-- C3: Batch atomicity.  First part: the post-authentication, post-parse
run of a batch either returns 202 with the three counters (all effects
committed), or returns the unhandled-failure response with the store
exactly as before the batch (full rollback, no partial counts — the error
response carries no counters at all).  Second part: an item skipped for a
falsy `external_id` is not a failure: the loop body succeeds and changes
nothing, so a skip never triggers the rollback. -/
theorem claim_atomicity :
    (∀ payload now st, (∃ c u p st', ingestPayload payload now st = (Resp.accepted c u p, st')) ∨
        ingestPayload payload now st = (Resp.serverError, st)) ∧
    (∀ s tid f now st c u p fs,
        pyTruthy (jget fs "external_id") = false →
        processItem s tid f now st (Json.obj fs) c u p = .ok (st, c, u, p)) := by
  constructor
  · intro payload now st
    cases payload with
    | obj kvs =>
        rcases hit : pyIterate (jgetD kvs "items" (Json.arr JsonList.nil)) with _ | xs
        · exact Or.inr (by simp [ingestPayload, hit])
        · rcases hpr : processItems (jgetD kvs "source" (Json.str "avito"))
              (jget kvs "target_id")
              (if pyTruthy (jget kvs "fetched_at") then jget kvs "fetched_at"
               else Json.str now) now xs st 0 0 0 with e | r
          · exact Or.inr (by simp [ingestPayload, hit, hpr])
          · obtain ⟨st1, c, u, p⟩ := r
            exact Or.inl ⟨c, u, p, st1, by simp [ingestPayload, hit, hpr]⟩
    | null => exact Or.inr (by simp [ingestPayload])
    | bool b => exact Or.inr (by simp [ingestPayload])
    | num n => exact Or.inr (by simp [ingestPayload])
    | str s => exact Or.inr (by simp [ingestPayload])
    | arr l => exact Or.inr (by simp [ingestPayload])
  · intro s tid f now st c u p fs hfal
    exact processItem_skip hfal s tid f now st c u p

/-- Witness for C3 at concrete inputs. -/
theorem claim_atomicity_witness :
    ((∃ c u p st', ingestPayload (Json.obj JsonFields.nil) "t0" store0
        = (Resp.accepted c u p, st')) ∨
      ingestPayload (Json.obj JsonFields.nil) "t0" store0
        = (Resp.serverError, store0)) ∧
    processItem (Json.str "avito") Json.null (Json.str "T") "t0" store0
      (Json.obj (JsonFields.cons "external_id" (Json.str "") JsonFields.nil)) 0 0 0
      = .ok (store0, 0, 0, 0) :=
  ⟨claim_atomicity.1 (Json.obj JsonFields.nil) "t0" store0,
   claim_atomicity.2 (Json.str "avito") Json.null (Json.str "T") "t0" store0 0 0 0
     (JsonFields.cons "external_id" (Json.str "") JsonFields.nil) (by decide)⟩

end ClaimC3

section ClaimC8

/-- Matched rows satisfy the key predicate. -/
theorem keyMatches_of_findKey {st : Store} {s e : Json} {a : AdRow}
    (h : findKey st s e = [a]) : keyMatches s e a = true := by
  have ha : a ∈ findKey st s e := by rw [h]; exact List.mem_singleton.2 rfl
  exact (List.mem_filter.1 ha).2

/-- C8: Reconcile overwrite and frame.  When the batch key matches exactly
one existing `Ad`, the upsert reports `is_created = false`, returns that
row's primary key, and afterwards the unique row under the key is the old
row with precisely `title`, `url`, `seller_name`, `seller_id`, `location`,
`currency`, `price_current`, `posted_at`, `is_active` and the target
reference overwritten by the incoming `defaults` (the target reference
becomes the batch's `target_id` unconditionally) and `last_seen_at`
refreshed to the server time, while `id`, `source`, `external_id` and
`created_at` are unchanged; the price-point table, the key counter, the row
count and all rows under other keys are untouched. -/
theorem claim_reconcile_frame {st : Store} {s e : Json} {d : AdDefaults} {now : String}
    {st' : Store} {i : Nat} {b : Bool} {a : AdRow}
    (hone : findKey st s e = [a])
    (h : update_or_create st s e d now = .ok (st', i, b)) :
    b = false ∧ i = a.id ∧
    findKey st' s e = [applyDefaults a d now] ∧
    (applyDefaults a d now).title = d.title ∧
    (applyDefaults a d now).url = d.url ∧
    (applyDefaults a d now).seller_name = d.seller_name ∧
    (applyDefaults a d now).seller_id = d.seller_id ∧
    (applyDefaults a d now).location = d.location ∧
    (applyDefaults a d now).currency = d.currency ∧
    (applyDefaults a d now).price_current = d.price_current ∧
    (applyDefaults a d now).posted_at = d.posted_at ∧
    (applyDefaults a d now).is_active = d.is_active ∧
    (applyDefaults a d now).target_id = d.target_id ∧
    (applyDefaults a d now).last_seen_at = now ∧
    (applyDefaults a d now).created_at = a.created_at ∧
    (applyDefaults a d now).id = a.id ∧
    (applyDefaults a d now).source = a.source ∧
    (applyDefaults a d now).external_id = a.external_id ∧
    st'.pricePoints = st.pricePoints ∧
    st'.nextAdId = st.nextAdId ∧
    st'.ads.length = st.ads.length ∧
    (∀ x ∈ st.ads, keyMatches s e x = false → x ∈ st'.ads) := by
  rcases uoc_ok_cases h with ⟨-, ⟨a0, hfk, hi, hb, hst⟩ | ⟨hfk, -, -, hst⟩⟩
  · have ha0 : a0 = a := by
      rw [hone] at hfk
      exact (List.cons.injEq _ _ _ _ ▸ hfk).1.symm
    subst ha0
    subst hst
    have hkm : keyMatches s e a0 = true := keyMatches_of_findKey hone
    refine ⟨hb, hi, ?_, rfl, rfl, rfl, rfl, rfl, rfl, rfl, rfl, rfl, rfl, rfl, rfl,
      rfl, rfl, rfl, rfl, rfl, by simp, ?_⟩
    · rw [findKey_map_update, hone]
      simp [hkm]
    · intro x hx hkx
      refine List.mem_map.2 ⟨x, hx, ?_⟩
      simp [hkx]
  · rw [hone] at hfk
    cases hfk

end ClaimC8

/-- Witness for C8 at a concrete input: one matching row, overwritten in
place; `is_created` is false, the primary key is returned, `created_at`
survives. -/
theorem claim_reconcile_frame_witness :
    findKey ({ ads := [applyDefaults adA dA "t1"], pricePoints := [], nextAdId := 4 } : Store)
        (Json.str "avito") (Json.str "7") = [applyDefaults adA dA "t1"] ∧
    (applyDefaults adA dA "t1").created_at = adA.created_at ∧
    (applyDefaults adA dA "t1").currency = dA.currency :=
  ⟨(@claim_reconcile_frame stA (Json.str "avito") (Json.str "7") dA "t1"
      { ads := [applyDefaults adA dA "t1"], pricePoints := [], nextAdId := 4 } 3 false adA
      (by decide) rfl).2.2.1,
   (@claim_reconcile_frame stA (Json.str "avito") (Json.str "7") dA "t1"
      { ads := [applyDefaults adA dA "t1"], pricePoints := [], nextAdId := 4 } 3 false adA
      (by decide) rfl).2.2.2.2.2.2.2.2.2.2.2.2.2.2.1,
   (@claim_reconcile_frame stA (Json.str "avito") (Json.str "7") dA "t1"
      { ads := [applyDefaults adA dA "t1"], pricePoints := [], nextAdId := 4 } 3 false adA
      (by decide) rfl).2.2.2.2.2.2.2.2.1⟩

section ClaimC4

/-- Exactly one row matching all four `get_or_create` kwargs: the call is a
successful no-op. -/
theorem goc_noop {st : Store} {i : Nat} {p cu t : Json} {r : PPRow}
    (hf : st.pricePoints.filter (ppFullMatch i p cu t) = [r]) :
    get_or_create_price_point st i p cu t = .ok (st, false) := by
  unfold get_or_create_price_point
  rw [hf]

/-- C4 counterexample: the store `stCex` already holds a `PricePoint` with
the exact tuple `(ad 3, collected_at "T", price 500)` (currency `USD`).
An item resubmitting that observation with currency `RUB` makes
`get_or_create` find no row under its four kwargs and insert, which
violates the `(ad, collected_at, price)` unique constraint: an
`IntegrityError` that fails the whole batch — not the successful no-op the
claim requires when a row with the exact tuple exists. -/
theorem claim_ledger_cex :
    stCex.pricePoints.any (ppTripleMatch 3 (Json.str "T") (Json.num 500)) = true ∧
    get_or_create_price_point stCex 3 (Json.num 500) (Json.str "RUB") (Json.str "T")
      = .error () ∧
    ingestPayload payCex "t9" stCex = (Resp.serverError, stCex) := by
  exact ⟨by decide, rfl, rfl⟩

/-- C4 amended: the ledger call matches on all four of
`(ad, price, currency, collected_at)`.  An exact four-value match is a
successful no-op; with no four-value match and no `(ad, collected_at,
price)` collision (and no nulls) a new row is inserted; with no four-value
match but an existing row sharing `(ad, collected_at, price)` (a different
currency) the insert raises `IntegrityError` and the batch fails.  An item
whose price is null or absent contributes no ledger call at all while its
`Ad` is still upserted. -/
theorem claim_ledger_amended :
    (∀ st i p cu t r, st.pricePoints.filter (ppFullMatch i p cu t) = [r] →
        get_or_create_price_point st i p cu t = .ok (st, false)) ∧
    (∀ st i p cu t, st.pricePoints.filter (ppFullMatch i p cu t) = [] →
        (p == Json.null || cu == Json.null || t == Json.null) = false →
        st.pricePoints.any (ppTripleMatch i t p) = false →
        get_or_create_price_point st i p cu t
          = .ok ({ st with pricePoints := st.pricePoints ++ [PPRow.mk i p cu t] }, true)) ∧
    (∀ st i p cu t, st.pricePoints.filter (ppFullMatch i p cu t) = [] →
        st.pricePoints.any (ppTripleMatch i t p) = true →
        get_or_create_price_point st i p cu t = .error ()) ∧
    (∀ s tid f now st fs c u p st2 c' u' p',
        pyTruthy (jget fs "external_id") = true → jget fs "price" = Json.null →
        processItem s tid f now st (Json.obj fs) c u p = .ok (st2, c', u', p') →
        st2.pricePoints = st.pricePoints ∧ p' = p ∧
        ∃ adId isC, update_or_create st s (jget fs "external_id")
            (itemDefaults fs tid) now = .ok (st2, adId, isC)) := by
  refine ⟨fun st i p cu t r hf => goc_noop hf, ?_, ?_, ?_⟩
  · intro st i p cu t hf hnull htr
    unfold get_or_create_price_point
    rw [hf, if_neg (by simp [hnull]), if_neg (by simp [htr])]
  · intro st i p cu t hf htr
    unfold get_or_create_price_point
    rw [hf]
    by_cases hnull : (p == Json.null || cu == Json.null || t == Json.null) = true
    · rw [if_pos hnull]
    · rw [if_neg hnull, if_pos htr]
  · intro s tid f now st fs c u p st2 c' u' p' hext hpr h
    obtain ⟨st1, adId, isC, huoc, -, -, hbr⟩ := processItem_ok_inv hext h
    rcases hbr with ⟨-, hst, hp⟩ | ⟨hne, -, -⟩
    · subst hst
      exact ⟨uoc_pricePoints huoc, hp, adId, isC, huoc⟩
    · exact absurd hpr hne

/-- Witness for C4 amended at concrete inputs: an exact four-value match is
a no-op, and a triple collision with a different currency is an error. -/
theorem claim_ledger_amended_witness :
    get_or_create_price_point stCex 3 (Json.num 500) (Json.str "USD") (Json.str "T")
      = .ok (stCex, false) ∧
    get_or_create_price_point stCex 3 (Json.num 500) (Json.str "EUR") (Json.str "T")
      = .error () :=
  ⟨claim_ledger_amended.1 stCex 3 (Json.num 500) (Json.str "USD") (Json.str "T")
      (PPRow.mk 3 (Json.num 500) (Json.str "USD") (Json.str "T")) (by decide),
   claim_ledger_amended.2.2.1 stCex 3 (Json.num 500) (Json.str "EUR") (Json.str "T")
      (by decide) (by decide)⟩

end ClaimC4

section ClaimC9

/-- After any successful upsert, the unique row under the key carries the
values of the `defaults` dict in its mutable columns. -/
theorem uoc_row_after {st : Store} {s e : Json} {d : AdDefaults} {now : String}
    {st' : Store} {i : Nat} {b : Bool}
    (h : update_or_create st s e d now = .ok (st', i, b)) :
    ∃ a, findKey st' s e = [a] ∧ a.currency = d.currency ∧
      a.price_current = d.price_current ∧ a.posted_at = d.posted_at ∧
      a.target_id = d.target_id ∧ a.title = d.title ∧ a.is_active = d.is_active := by
  rcases uoc_ok_cases h with ⟨-, ⟨a0, hfk, -, -, hst⟩ | ⟨hfk, -, -, hst⟩⟩ <;> subst hst
  · have hkm : keyMatches s e a0 = true := keyMatches_of_findKey hfk
    rw [findKey_map_update, hfk]
    exact ⟨applyDefaults a0 d now, by simp [hkm], rfl, rfl, rfl, rfl, rfl, rfl⟩
  · rw [findKey_append, hfk]
    have hk : keyMatches s e (newAdRow st.nextAdId s e d now) = true := by
      simp [keyMatches, newAdRow]
    exact ⟨newAdRow st.nextAdId s e d now, by simp [hk], rfl, rfl, rfl, rfl, rfl, rfl⟩

/-- C9 counterexample: an item carrying an explicit `"currency": null`.  The
claim says ingestion stores `Ad.currency = null`; in fact the `currency`
column is NOT NULL, the save raises `IntegrityError`, the batch fails with
a server error and nothing at all is stored. -/
theorem claim_null_default_cex :
    JsonFields.lookup (JsonFields.cons "external_id" (Json.str "9")
        (JsonFields.cons "currency" Json.null JsonFields.nil)) "currency"
      = some Json.null ∧
    ingestPayload pay3 "t0" store0 = (Resp.serverError, store0) ∧
    (ingestPayload pay3 "t0" store0).2.ads = [] := by
  exact ⟨rfl, rfl, rfl⟩

/-- C9 amended: the view substitutes the documented defaults only for keys
that are entirely absent — a key bound to JSON null passes the explicit
null through to the `defaults` dict.  For the nullable columns
(`price_current`, `posted_at`, `target`) that null is stored; for the
NOT NULL columns (e.g. `currency`, `is_active`) the save raises
`IntegrityError` and the batch fails, so no row with the documented default
— nor any row at all — is stored. -/
theorem claim_null_default_amended :
    (∀ fs tid, JsonFields.lookup fs "currency" = some Json.null →
        (itemDefaults fs tid).currency = Json.null) ∧
    (∀ fs tid, JsonFields.lookup fs "currency" = none →
        (itemDefaults fs tid).currency = Json.str "RUB") ∧
    (∀ fs tid, JsonFields.lookup fs "is_active" = some Json.null →
        (itemDefaults fs tid).is_active = Json.null) ∧
    (∀ fs tid, JsonFields.lookup fs "is_active" = none →
        (itemDefaults fs tid).is_active = Json.bool true) ∧
    (∀ st s e d now, d.currency = Json.null →
        update_or_create st s e d now = .error ()) ∧
    (∀ st s e d now, d.is_active = Json.null →
        update_or_create st s e d now = .error ()) ∧
    (∀ st s e d now st' i b, update_or_create st s e d now = .ok (st', i, b) →
        ∃ a, findKey st' s e = [a] ∧ a.price_current = d.price_current ∧
          a.posted_at = d.posted_at ∧ a.target_id = d.target_id) := by
  refine ⟨?_, ?_, ?_, ?_, ?_, ?_, ?_⟩
  · intro fs tid h; simp [itemDefaults, jgetD, h]
  · intro fs tid h; simp [itemDefaults, jgetD, h]
  · intro fs tid h; simp [itemDefaults, jgetD, h]
  · intro fs tid h; simp [itemDefaults, jgetD, h]
  · intro st s e d now hd
    have hsv : adSaveOk s e d = false := by simp [adSaveOk, hd]
    unfold update_or_create
    rcases hfk : findKey st s e with _ | ⟨a, _ | ⟨a2, rest⟩⟩ <;> simp [hsv]
  · intro st s e d now hd
    have hsv : adSaveOk s e d = false := by simp [adSaveOk, hd]
    unfold update_or_create
    rcases hfk : findKey st s e with _ | ⟨a, _ | ⟨a2, rest⟩⟩ <;> simp [hsv]
  · intro st s e d now st' i b h
    obtain ⟨a, hfk, -, hpc, hpa, htg, -, -⟩ := uoc_row_after h
    exact ⟨a, hfk, hpc, hpa, htg⟩

/-- Witness for C9 amended at concrete inputs. -/
theorem claim_null_default_amended_witness :
    (itemDefaults (JsonFields.cons "currency" Json.null JsonFields.nil) Json.null).currency
      = Json.null ∧
    update_or_create store0 (Json.str "avito") (Json.str "9")
      (itemDefaults (JsonFields.cons "currency" Json.null JsonFields.nil) Json.null) "t0"
      = .error () :=
  ⟨claim_null_default_amended.1 (JsonFields.cons "currency" Json.null JsonFields.nil)
      Json.null rfl,
   claim_null_default_amended.2.2.2.2.1 store0 (Json.str "avito") (Json.str "9")
      (itemDefaults (JsonFields.cons "currency" Json.null JsonFields.nil) Json.null) "t0"
      (claim_null_default_amended.1 (JsonFields.cons "currency" Json.null JsonFields.nil)
        Json.null rfl)⟩

end ClaimC9

section Counts

/-- Python raises `AttributeError` on `.get` of a non-dict item. -/
theorem processItem_not_obj (s tid f : Json) (now : String) (st : Store)
    (c u p : Nat) (x : Json) (hx : ∀ fs, x ≠ Json.obj fs) :
    processItem s tid f now st x c u p = .error () := by
  cases x <;> first | rfl | exact absurd rfl (hx _)

/-- Key counting only looks at the `Ad` table. -/
theorem adCount_ads_eq {st1 st2 : Store} (h : st1.ads = st2.ads) (s e : Json) :
    adCount st1 s e = adCount st2 s e := by
  unfold adCount findKey
  rw [h]

/-- Counter and key-count bookkeeping of one successful processed item. -/
theorem processItem_adCount {s tid f : Json} {now : String} {st : Store}
    {fs : JsonFields} {c u p : Nat} {st1 : Store} {c1 u1 p1 : Nat}
    (hext : pyTruthy (jget fs "external_id") = true)
    (h : processItem s tid f now st (.obj fs) c u p = .ok (st1, c1, u1, p1)) :
    ∃ isC, c1 = c + (if isC then 1 else 0) ∧ u1 = u + (if isC then 0 else 1) ∧
      p1 = p + (if jget fs "price" != Json.null then 1 else 0) ∧
      (isC = true → adCount st s (jget fs "external_id") = 0) ∧
      (isC = false → adCount st s (jget fs "external_id") = 1) ∧
      (∀ e, adCount st1 s e = adCount st s e +
        (if isC = true ∧ e = jget fs "external_id" then 1 else 0)) := by
  obtain ⟨stM, adId, isC, huoc, hc, hu, hbr⟩ := processItem_ok_inv hext h
  have hcount : ∀ e, adCount stM s e = adCount st s e +
      (if isC = true ∧ e = jget fs "external_id" then 1 else 0) := by
    intro e
    have h2 := uoc_adCount huoc s e
    by_cases hisC : isC = true
    · by_cases he : e = jget fs "external_id" <;>
        simp [hisC, he] at h2 ⊢ <;> omega
    · simp [hisC] at h2 ⊢
      omega
  have hzero : isC = true → adCount st s (jget fs "external_id") = 0 := by
    intro hisC
    rcases uoc_ok_cases huoc with ⟨-, ⟨a0, -, -, hb, -⟩ | ⟨hfk, -, -, -⟩⟩
    · rw [hisC] at hb; cases hb
    · unfold adCount
      rw [hfk]
      rfl
  have hone2 : isC = false → adCount st s (jget fs "external_id") = 1 := by
    intro hisC
    rcases uoc_ok_cases huoc with ⟨-, ⟨a0, hfk, -, -, -⟩ | ⟨-, -, hb, -⟩⟩
    · unfold adCount
      rw [hfk]
      rfl
    · rw [hisC] at hb; cases hb
  rcases hbr with ⟨hpr, hst, hp⟩ | ⟨hpr, hp, b2, hgoc⟩
  · subst hst
    refine ⟨isC, hc, hu, ?_, hzero, hone2, hcount⟩
    simp [hpr, hp]
  · refine ⟨isC, hc, hu, ?_, hzero, hone2, ?_⟩
    · have : (jget fs "price" != Json.null) = true := by simpa [bne_iff_ne] using hpr
      simp [this, hp]
    · intro e
      rw [adCount_ads_eq (goc_ads hgoc).1 s e]
      exact hcount e

/-- Length bookkeeping for a filter when exactly one listed element flips
from accepted to rejected. -/
theorem filter_length_flip {α : Type} [DecidableEq α] :
    ∀ (l : List α), l.Nodup → ∀ (a : α) (p q : α → Bool), a ∈ l →
      p a = true → q a = false → (∀ b ∈ l, b ≠ a → p b = q b) →
      (l.filter p).length = (l.filter q).length + 1
  | [], _, a, p, q, ha, _, _, _ => absurd ha (List.not_mem_nil a)
  | b :: l, hnd, a, p, q, ha, hpa, hqa, hagree => by
      rcases List.mem_cons.1 ha with hba | hal
      · subst hba
        have hnotin : a ∉ l := (List.nodup_cons.1 hnd).1
        have hsame : l.filter p = l.filter q := by
          apply List.filter_congr
          intro x hx
          exact hagree x (List.mem_cons_of_mem _ hx) (fun hxa => hnotin (hxa ▸ hx))
        simp [List.filter_cons, hpa, hqa, hsame]
      · have hba : b ≠ a := fun hba => (List.nodup_cons.1 hnd).1 (hba ▸ hal)
        have hrec := filter_length_flip l (List.nodup_cons.1 hnd).2 a p q hal hpa hqa
          (fun x hx hxa => hagree x (List.mem_cons_of_mem _ hx) hxa)
        have hpq : p b = q b := hagree b (List.mem_cons_self b l) hba
        by_cases hpb : p b = true <;>
          simp [List.filter_cons, hpb, hpq ▸ hpb, hrec]

/-- Evolution of the distinct-new-key count over one processed item. -/
theorem newKeyCount_cons_processed {st stA : Store} {s : Json} {fs : JsonFields}
    (rest : List Json) (isC : Bool)
    (hext : pyTruthy (jget fs "external_id") = true)
    (hc0 : isC = true → adCount st s (jget fs "external_id") = 0)
    (hc1 : isC = false → adCount st s (jget fs "external_id") = 1)
    (hstep : ∀ e, adCount stA s e = adCount st s e +
      (if isC = true ∧ e = jget fs "external_id" then 1 else 0)) :
    newKeyCount st s (Json.obj fs :: rest)
      = (if isC then 1 else 0) + newKeyCount stA s rest := by
  have hhead : ((Json.obj fs :: rest).filter (fun x => pyTruthy (extOf x))).map extOf
      = jget fs "external_id" :: ((rest.filter (fun x => pyTruthy (extOf x))).map extOf) := by
    simp [List.filter_cons, extOf, hext]
  unfold newKeyCount
  rw [hhead]
  cases isC with
  | true =>
      have hz : adCount st s (jget fs "external_id") = 0 := hc0 rfl
      have hstA : ∀ e, adCount stA s e
          = adCount st s e + (if e = jget fs "external_id" then 1 else 0) := by
        intro e; simpa using hstep e
      have hAE : adCount stA s (jget fs "external_id") = 1 := by
        rw [hstA, hz]; simp
      have hother : ∀ e, e ≠ jget fs "external_id" → adCount stA s e = adCount st s e := by
        intro e he; rw [hstA]; simp [he]
      by_cases hmem : jget fs "external_id"
          ∈ (rest.filter (fun x => pyTruthy (extOf x))).map extOf
      · rw [List.dedup_cons_of_mem hmem]
        have := filter_length_flip
          ((rest.filter (fun x => pyTruthy (extOf x))).map extOf).dedup
          (List.nodup_dedup _) (jget fs "external_id")
          (fun e => adCount st s e == 0) (fun e => adCount stA s e == 0)
          (List.mem_dedup.2 hmem) (by simp [hz]) (by simp [hAE])
          (fun b _ hb => by simp only [hother b hb])
        simp only [if_pos]
        omega
      · rw [List.dedup_cons_of_not_mem hmem]
        have hfe : ((jget fs "external_id" ::
            ((rest.filter (fun x => pyTruthy (extOf x))).map extOf).dedup).filter
              (fun e => adCount st s e == 0)).length
            = (((rest.filter (fun x => pyTruthy (extOf x))).map extOf).dedup.filter
                (fun e => adCount st s e == 0)).length + 1 := by
          simp [List.filter_cons, hz]
        rw [hfe]
        have hsame : (((rest.filter (fun x => pyTruthy (extOf x))).map extOf).dedup.filter
              (fun e => adCount st s e == 0))
            = (((rest.filter (fun x => pyTruthy (extOf x))).map extOf).dedup.filter
                (fun e => adCount stA s e == 0)) := by
          apply List.filter_congr
          intro e he
          rw [hother e (fun hee => hmem (hee ▸ List.mem_dedup.1 he))]
        rw [hsame]
        simp only [if_pos]
        omega
  | false =>
      have ho : adCount st s (jget fs "external_id") = 1 := hc1 rfl
      have hstA : ∀ e, adCount stA s e = adCount st s e := by
        intro e; simpa using hstep e
      have hsame : ∀ (l : List Json), (l.filter (fun e => adCount st s e == 0))
          = (l.filter (fun e => adCount stA s e == 0)) := by
        intro l
        apply List.filter_congr
        intro e _
        rw [hstA e]
      by_cases hmem : jget fs "external_id"
          ∈ (rest.filter (fun x => pyTruthy (extOf x))).map extOf
      · rw [List.dedup_cons_of_mem hmem, hsame]
        simp
      · rw [List.dedup_cons_of_not_mem hmem]
        have hdrop : ((jget fs "external_id" ::
            ((rest.filter (fun x => pyTruthy (extOf x))).map extOf).dedup).filter
              (fun e => adCount st s e == 0)).length
            = (((rest.filter (fun x => pyTruthy (extOf x))).map extOf).dedup.filter
                (fun e => adCount st s e == 0)).length := by
          simp [List.filter_cons, ho]
        rw [hdrop, hsame]
        simp

end Counts

section CountsMain

/-- Processed-item count over a cons. -/
theorem processedCount_cons (x : Json) (xs : List Json) :
    processedCount (x :: xs)
      = processedCount xs + (if pyTruthy (extOf x) then 1 else 0) := by
  by_cases h : pyTruthy (extOf x) = true <;>
    simp [processedCount, List.filter_cons, h]

/-- Ledger-eligible count over a cons. -/
theorem eligCount_cons (x : Json) (xs : List Json) :
    eligCount (x :: xs) = eligCount xs
      + (if pyTruthy (extOf x) && priceOf x != Json.null then 1 else 0) := by
  by_cases h : (pyTruthy (extOf x) && priceOf x != Json.null) = true <;>
    simp [eligCount, List.filter_cons, h]

/-- New-key count ignores skipped items. -/
theorem newKeyCount_cons_skip {st : Store} {s : Json} {x : Json}
    (hx : pyTruthy (extOf x) = false) (xs : List Json) :
    newKeyCount st s (x :: xs) = newKeyCount st s xs := by
  simp [newKeyCount, List.filter_cons, hx]

/-- Aggregate counter bookkeeping of a committed loop run: the three
response counters measured against the pre-batch store. -/
theorem processItems_counts (s tid f : Json) (now : String) :
    ∀ (xs : List Json) (st : Store) (c u p c' u' p' : Nat) (st' : Store),
      processItems s tid f now xs st c u p = .ok (st', c', u', p') →
      c' + u' = c + u + processedCount xs ∧
      p' = p + eligCount xs ∧
      c' = c + newKeyCount st s xs := by
  intro xs
  induction xs with
  | nil =>
      intro st c u p c' u' p' st' h
      simp [processItems] at h
      obtain ⟨-, hc, hu, hp⟩ := h
      subst hc; subst hu; subst hp
      simp [processedCount, eligCount, newKeyCount]
  | cons x rest ih =>
      intro st c u p c' u' p' st' h
      simp only [processItems] at h
      rcases hpi : processItem s tid f now st x c u p with e | ⟨stA, c1, u1, p1⟩ <;>
        rw [hpi] at h
      · cases h
      · cases x with
        | obj fs =>
            by_cases hext : pyTruthy (jget fs "external_id") = true
            · obtain ⟨isC, hc1, hu1, hp1, hz, ho, hcount⟩ := processItem_adCount hext hpi
              obtain ⟨hcu, hp, hc⟩ := ih stA c1 u1 p1 c' u' p' st' h
              refine ⟨?_, ?_, ?_⟩
              · rw [hcu, hc1, hu1, processedCount_cons]
                simp only [extOf, hext, if_pos]
                cases isC <;> simp <;> omega
              · rw [hp, hp1, eligCount_cons]
                simp only [extOf, priceOf, hext, Bool.true_and]
                omega
              · rw [hc, hc1, newKeyCount_cons_processed rest isC hext hz ho hcount]
                cases isC
                · simp
                · simp
                  omega
            · have hfal : pyTruthy (jget fs "external_id") = false := by
                simpa using hext
              rw [processItem_skip hfal] at hpi
              cases hpi
              obtain ⟨hcu, hp, hc⟩ := ih st c u p c' u' p' st' h
              refine ⟨?_, ?_, ?_⟩
              · rw [hcu, processedCount_cons]
                simp [extOf, hfal]
              · rw [hp, eligCount_cons]
                simp [extOf, hfal]
              · rw [hc, newKeyCount_cons_skip (by simp [extOf, hfal]) rest]
        | null => rw [processItem_not_obj s tid f now st c u p _ (by intro fs h2; cases h2)] at hpi; cases hpi
        | bool b => rw [processItem_not_obj s tid f now st c u p _ (by intro fs h2; cases h2)] at hpi; cases hpi
        | num n => rw [processItem_not_obj s tid f now st c u p _ (by intro fs h2; cases h2)] at hpi; cases hpi
        | str s2 => rw [processItem_not_obj s tid f now st c u p _ (by intro fs h2; cases h2)] at hpi; cases hpi
        | arr l => rw [processItem_not_obj s tid f now st c u p _ (by intro fs h2; cases h2)] at hpi; cases hpi

/-- Inversion of a 202 response: the items iterate and the loop committed
with exactly the reported counters. -/
theorem ingestPayload_accepted_inv {kvs : JsonFields} {now : String} {st : Store}
    {c u p : Nat} {st' : Store}
    (h : ingestPayload (Json.obj kvs) now st = (Resp.accepted c u p, st')) :
    ∃ xs, pyIterate (jgetD kvs "items" (Json.arr JsonList.nil)) = some xs ∧
      processItems (jgetD kvs "source" (Json.str "avito")) (jget kvs "target_id")
        (if pyTruthy (jget kvs "fetched_at") then jget kvs "fetched_at" else Json.str now)
        now xs st 0 0 0 = .ok (st', c, u, p) := by
  simp only [ingestPayload] at h
  rcases hit : pyIterate (jgetD kvs "items" (Json.arr JsonList.nil)) with _ | xs <;>
    rw [hit] at h <;> dsimp only at h
  · cases h
  · rcases hpr : processItems (jgetD kvs "source" (Json.str "avito")) (jget kvs "target_id")
        (if pyTruthy (jget kvs "fetched_at") then jget kvs "fetched_at" else Json.str now)
        now xs st 0 0 0 with e | ⟨st1, c1, u1, p1⟩ <;> rw [hpr] at h <;> dsimp only at h
    · cases h
    · simp at h
      obtain ⟨⟨hc, hu, hp⟩, hst⟩ := h
      exact ⟨xs, rfl, by rw [hpr, hst, hc, hu, hp]⟩

end CountsMain

section ClaimC7

/-- C7: the `price_points` counter counts attempts, not inserts.  For every
committed batch the reported counter equals the number of processed
(non-skipped) items whose price is non-null — the loop increments it after
every `get_or_create` call, whether that call inserted a row or was a
no-op, so the counter is independent of the pre-existing ledger rows. -/
theorem claim_pp_counter (kvs : JsonFields) (xs : List Json) (now : String)
    (st st' : Store) (c u p : Nat)
    (hiter : pyIterate (jgetD kvs "items" (Json.arr JsonList.nil)) = some xs)
    (hrun : ingestPayload (Json.obj kvs) now st = (Resp.accepted c u p, st')) :
    p = eligCount xs := by
  obtain ⟨xs2, hit2, hpr⟩ := ingestPayload_accepted_inv hrun
  rw [hiter] at hit2
  injection hit2 with h2
  subst h2
  have hcts := processItems_counts (jgetD kvs "source" (Json.str "avito"))
    (jget kvs "target_id")
    (if pyTruthy (jget kvs "fetched_at") then jget kvs "fetched_at" else Json.str now)
    now xs st 0 0 0 c u p st' hpr
  rw [hcts.2.1]
  simp

end ClaimC7

section ClaimC10

/-- C10: counter conservation.  For a committed batch whose items carry
string (or absent/null) external ids, `created + updated` equals the number
of items with a nonempty `external_id` (each occurrence counted), and
`created` equals the number of distinct external ids among those items with
no pre-existing `Ad` row under the batch's source. -/
theorem claim_counter_conservation (kvs : JsonFields) (xs : List Json) (now : String)
    (st st' : Store) (c u p : Nat)
    (hiter : pyIterate (jgetD kvs "items" (Json.arr JsonList.nil)) = some xs)
    (hstr : ∀ x ∈ xs, extOf x = Json.null ∨ ∃ s2, extOf x = Json.str s2)
    (hrun : ingestPayload (Json.obj kvs) now st = (Resp.accepted c u p, st')) :
    c + u = (xs.filter hasNonemptyStrId).length ∧
    c = newKeyCount st (jgetD kvs "source" (Json.str "avito")) xs := by
  obtain ⟨xs2, hit2, hpr⟩ := ingestPayload_accepted_inv hrun
  rw [hiter] at hit2
  injection hit2 with h2
  subst h2
  have hcts := processItems_counts (jgetD kvs "source" (Json.str "avito"))
    (jget kvs "target_id")
    (if pyTruthy (jget kvs "fetched_at") then jget kvs "fetched_at" else Json.str now)
    now xs st 0 0 0 c u p st' hpr
  constructor
  · have hpc : processedCount xs = (xs.filter hasNonemptyStrId).length := by
      unfold processedCount
      congr 1
      apply List.filter_congr
      intro x hx
      rcases hstr x hx with h | ⟨s2, h⟩
      · simp [hasNonemptyStrId, h, pyTruthy]
      · simp [hasNonemptyStrId, h, pyTruthy]
    have h1 := hcts.1
    omega
  · have h2 := hcts.2.2
    omega

end ClaimC10

/-- Witness for C7 at a concrete input: the spec's end-to-end example batch
re-ingested over its own first run reports `price_points = 1` even though
the ledger call was a no-op (no row inserted). -/
theorem claim_pp_counter_witness :
    (1 : Nat) = eligCount [Json.obj itemP1] :=
  claim_pp_counter kvsP1 [Json.obj itemP1] "t1"
    (ingestPayload pay1 "t0" store0).2
    (ingestPayload pay1 "t1" (ingestPayload pay1 "t0" store0).2).2 0 1 1 rfl
    (by decide)

/-- Witness for C10 at a concrete input: first ingestion of the example
batch from the empty store has `created + updated = 1` item with identity
and `created = 1` distinct new key. -/
theorem claim_counter_conservation_witness :
    (1 : Nat) + 0 = ([Json.obj itemP1].filter hasNonemptyStrId).length ∧
    (1 : Nat) = newKeyCount store0 (jgetD kvsP1 "source" (Json.str "avito"))
      [Json.obj itemP1] :=
  claim_counter_conservation kvsP1 [Json.obj itemP1] "t0" store0
    (ingestPayload pay1 "t0" store0).2 1 0 1 rfl
    (fun x hx => by
      have hx2 : x = Json.obj itemP1 := by simpa using hx
      subst hx2
      exact Or.inr ⟨"123", rfl⟩)
    (by decide)

section ClaimC1

/-- Key lookups only read the `Ad` table. -/
theorem findKey_ads_eq {st1 st2 : Store} (h : st1.ads = st2.ads) (s e : Json) :
    findKey st1 s e = findKey st2 s e := by
  unfold findKey
  rw [h]

/-- Evaluation of `update_or_create` on a singleton key match. -/
theorem uoc_update_eval {st : Store} {s e : Json} {d : AdDefaults} {now : String}
    {a : AdRow} (hfk : findKey st s e = [a]) (hsv : adSaveOk s e d = true) :
    update_or_create st s e d now = .ok
      ({ st with ads := st.ads.map (fun x =>
          if keyMatches s e x then applyDefaults x d now else x) }, a.id, false) := by
  unfold update_or_create
  rw [hfk]
  simp [hsv]

/-- One successful loop-body step preserves readiness of any item. -/
theorem readyItem_pres {s tid f : Json} {now : String} {st : Store} {y : Json}
    {c u p : Nat} {st1 : Store} {c1 u1 p1 : Nat} {x : Json}
    (h : processItem s tid f now st y c u p = .ok (st1, c1, u1, p1))
    (hx : readyItem s tid f st x) : readyItem s tid f st1 x := by
  obtain ⟨fs, a, hxeq, hext, hsv, hfk, hpp⟩ := hx
  cases y with
  | obj gfs =>
      by_cases hyext : pyTruthy (jget gfs "external_id") = true
      · obtain ⟨stM, adId, isC, huoc, -, -, hbr⟩ := processItem_ok_inv hyext h
        obtain ⟨a2, hfk2, hid2⟩ := uoc_singleton_pres huoc hfk
        have hppM : stM.pricePoints = st.pricePoints := uoc_pricePoints huoc
        rcases hbr with ⟨hprn, hst, -⟩ | ⟨hprn, -, b2, hgoc⟩
        · subst hst
          refine ⟨fs, a2, hxeq, hext, hsv, hfk2, ?_⟩
          intro hprx
          rw [hppM, hid2]
          exact hpp hprx
        · have hads : st1.ads = stM.ads := (goc_ads hgoc).1
          refine ⟨fs, a2, hxeq, hext, hsv, ?_, ?_⟩
          · rw [findKey_ads_eq hads]
            exact hfk2
          · intro hprx
            refine goc_preserve_full_one hgoc ?_
            rw [hppM, hid2]
            exact hpp hprx
      · rw [processItem_skip (by simpa using hyext) s tid f now st c u p] at h
        cases h
        exact ⟨fs, a, hxeq, hext, hsv, hfk, hpp⟩
  | null =>
      rw [processItem_not_obj s tid f now st c u p _ (by intro fs2 h2; cases h2)] at h
      cases h
  | bool b =>
      rw [processItem_not_obj s tid f now st c u p _ (by intro fs2 h2; cases h2)] at h
      cases h
  | num n =>
      rw [processItem_not_obj s tid f now st c u p _ (by intro fs2 h2; cases h2)] at h
      cases h
  | str s2 =>
      rw [processItem_not_obj s tid f now st c u p _ (by intro fs2 h2; cases h2)] at h
      cases h
  | arr l =>
      rw [processItem_not_obj s tid f now st c u p _ (by intro fs2 h2; cases h2)] at h
      cases h

/-- A successfully processed item is ready in the resulting store. -/
theorem readyItem_post {s tid f : Json} {now : String} {st : Store} {fs : JsonFields}
    {c u p : Nat} {st1 : Store} {c1 u1 p1 : Nat}
    (hext : pyTruthy (jget fs "external_id") = true)
    (h : processItem s tid f now st (Json.obj fs) c u p = .ok (st1, c1, u1, p1)) :
    readyItem s tid f st1 (Json.obj fs) := by
  obtain ⟨stM, adId, isC, huoc, -, -, hbr⟩ := processItem_ok_inv hext h
  have hsv : adSaveOk s (jget fs "external_id") (itemDefaults fs tid) = true :=
    (uoc_ok_cases huoc).1
  obtain ⟨a, hfkM, hida⟩ := uoc_findKey_self huoc
  rcases hbr with ⟨hprn, hst, -⟩ | ⟨hprn, -, b2, hgoc⟩
  · subst hst
    exact ⟨fs, a, rfl, hext, hsv, hfkM, fun hprx => absurd hprn hprx⟩
  · have hads : st1.ads = stM.ads := (goc_ads hgoc).1
    refine ⟨fs, a, rfl, hext, hsv, ?_, ?_⟩
    · rw [findKey_ads_eq hads]
      exact hfkM
    · intro hprx
      rw [hida]
      exact goc_full_one hgoc

/-- A successful run of the loop preserves readiness of any item. -/
theorem readyItem_pres_many {s tid f : Json} {now : String} :
    ∀ (xs : List Json) (st : Store) (c u p : Nat) (st' : Store) (c' u' p' : Nat)
      (x : Json),
      processItems s tid f now xs st c u p = .ok (st', c', u', p') →
      readyItem s tid f st x → readyItem s tid f st' x := by
  intro xs
  induction xs with
  | nil =>
      intro st c u p st' c' u' p' x h hx
      simp [processItems] at h
      rw [← h.1]
      exact hx
  | cons y rest ih =>
      intro st c u p st' c' u' p' x h hx
      simp only [processItems] at h
      rcases hpi : processItem s tid f now st y c u p with e | ⟨stA, c1, u1, p1⟩ <;>
        rw [hpi] at h
      · cases h
      · exact ih stA c1 u1 p1 st' c' u' p' x h (readyItem_pres hpi hx)

/-- After a committed run of a batch of dict items with truthy external ids,
every item of the batch is ready for replay in the resulting store. -/
theorem processItems_ready {s tid f : Json} {now : String} :
    ∀ (xs : List Json) (st : Store) (c u p : Nat) (st' : Store) (c' u' p' : Nat),
      processItems s tid f now xs st c u p = .ok (st', c', u', p') →
      (∀ x ∈ xs, ∃ fs, x = Json.obj fs ∧ pyTruthy (jget fs "external_id") = true) →
      ∀ x ∈ xs, readyItem s tid f st' x := by
  intro xs
  induction xs with
  | nil =>
      intro st c u p st' c' u' p' h hobj x hx
      exact absurd hx (List.not_mem_nil x)
  | cons y rest ih =>
      intro st c u p st' c' u' p' h hobj x hx
      simp only [processItems] at h
      rcases hpi : processItem s tid f now st y c u p with e | ⟨stA, c1, u1, p1⟩ <;>
        rw [hpi] at h
      · cases h
      · rcases List.mem_cons.1 hx with hxy | hxr
        · subst hxy
          obtain ⟨fs, hyeq, hyext⟩ := hobj x (List.mem_cons_self x rest)
          subst hyeq
          exact readyItem_pres_many rest stA c1 u1 p1 st' c' u' p' _ h
            (readyItem_post hyext hpi)
        · exact ih stA c1 u1 p1 st' c' u' p' h
            (fun z hz => hobj z (List.mem_cons_of_mem _ hz)) x hxr

/-- Replay of a batch whose items are all ready: every upsert takes the
update branch and every ledger call is a no-op, so the run commits with
`created = 0`, `updated` increased by the batch size, `price_points`
increased by the eligible-item count, and an unchanged ledger. -/
theorem processItems_replay {s tid f : Json} {now : String} :
    ∀ (xs : List Json) (T : Store) (c u p : Nat),
      (∀ x ∈ xs, readyItem s tid f T x) →
      ∃ T', processItems s tid f now xs T c u p
          = .ok (T', c, u + xs.length, p + eligCount xs) ∧
        T'.pricePoints = T.pricePoints := by
  intro xs
  induction xs with
  | nil =>
      intro T c u p hready
      exact ⟨T, by simp [processItems, eligCount], rfl⟩
  | cons x rest ih =>
      intro T c u p hready
      obtain ⟨fs, a, hxeq, hext, hsv, hfk, hpp⟩ := hready x (List.mem_cons_self x rest)
      subst hxeq
      have huoc := @uoc_update_eval T s (jget fs "external_id")
        (itemDefaults fs tid) now a hfk hsv
      by_cases hprn : jget fs "price" = Json.null
      · have hstep : processItem s tid f now T (Json.obj fs) c u p
            = .ok ({ T with ads := T.ads.map (fun z =>
                if keyMatches s (jget fs "external_id") z
                then applyDefaults z (itemDefaults fs tid) now else z) },
              c, u + 1, p) := by
          simp only [processItem, hext, if_true]
          rw [huoc]
          simp [hprn]
        have hreadyRest : ∀ y ∈ rest, readyItem s tid f
            ({ T with ads := T.ads.map (fun z =>
                if keyMatches s (jget fs "external_id") z
                then applyDefaults z (itemDefaults fs tid) now else z) }) y :=
          fun y hy => readyItem_pres hstep (hready y (List.mem_cons_of_mem _ hy))
        obtain ⟨T', hT', hTpp⟩ := ih _ c (u + 1) p hreadyRest
        refine ⟨T', ?_, hTpp⟩
        simp only [processItems]
        rw [hstep]
        dsimp only
        rw [hT']
        simp only [Except.ok.injEq, Prod.mk.injEq, List.length_cons]
        refine ⟨by trivial, by trivial, by omega, ?_⟩
        rw [eligCount_cons]
        simp [extOf, priceOf, hext, hprn]
      · have hprb : (jget fs "price" != Json.null) = true := by
          simpa [bne_iff_ne] using hprn
        have hfull : (T.pricePoints.filter (ppFullMatch a.id (jget fs "price")
            (jgetD fs "currency" (Json.str "RUB")) f)).length = 1 := hpp hprn
        obtain ⟨r, hr⟩ := List.length_eq_one.1 hfull
        have hgoc : get_or_create_price_point
            ({ T with ads := T.ads.map (fun z =>
                if keyMatches s (jget fs "external_id") z
                then applyDefaults z (itemDefaults fs tid) now else z) })
            a.id (jget fs "price") (jgetD fs "currency" (Json.str "RUB")) f
            = .ok ({ T with ads := T.ads.map (fun z =>
                if keyMatches s (jget fs "external_id") z
                then applyDefaults z (itemDefaults fs tid) now else z) }, false) :=
          goc_noop hr
        have hstep : processItem s tid f now T (Json.obj fs) c u p
            = .ok ({ T with ads := T.ads.map (fun z =>
                if keyMatches s (jget fs "external_id") z
                then applyDefaults z (itemDefaults fs tid) now else z) },
              c, u + 1, p + 1) := by
          simp only [processItem, hext, if_true]
          rw [huoc]
          dsimp only
          rw [hprb]
          simp only [if_true]
          rw [hgoc]
          simp
        have hreadyRest : ∀ y ∈ rest, readyItem s tid f
            ({ T with ads := T.ads.map (fun z =>
                if keyMatches s (jget fs "external_id") z
                then applyDefaults z (itemDefaults fs tid) now else z) }) y :=
          fun y hy => readyItem_pres hstep (hready y (List.mem_cons_of_mem _ hy))
        obtain ⟨T', hT', hTpp⟩ := ih _ c (u + 1) (p + 1) hreadyRest
        refine ⟨T', ?_, hTpp⟩
        simp only [processItems]
        rw [hstep]
        dsimp only
        rw [hT']
        simp only [Except.ok.injEq, Prod.mk.injEq, List.length_cons]
        refine ⟨by trivial, by trivial, by omega, ?_⟩
        rw [eligCount_cons]
        simp only [extOf, priceOf, hext, hprb, Bool.true_and, if_pos]
        omega

end ClaimC1

/-- C1 counterexample: the spec's own end-to-end example batch (one item,
external_id "123", explicit fetched_at), first ingested from the empty
store with `created = 1`.  The claim predicts the second, identical
ingestion reports `created = 1, updated = 0`; the code reports
`created = 0, updated = 1` (and indeed no new price points). -/
theorem claim_idempotent_cex :
    (ingestPayload pay1 "t0" store0).1 = Resp.accepted 1 0 1 ∧
    (ingestPayload pay1 "t1" (ingestPayload pay1 "t0" store0).2).1
      = Resp.accepted 0 1 1 ∧
    Resp.accepted 0 1 1 ≠ Resp.accepted 1 0 1 := by
  exact ⟨rfl, rfl, by decide⟩

/-- C1 amended: idempotent re-ingestion with the counters the code actually
reports.  For a batch of dict items all carrying a truthy `external_id` and
an explicit (truthy) `fetched_at`, if the first ingestion commits with
counters `(c, u, p)`, then immediately re-ingesting the identical payload
commits with `created = 0`, `updated = ` the number of items, the same
`price_points = p`, and the set of `PricePoint` rows after the second call
is exactly the set after the first (zero additional price points). -/
theorem claim_idempotent_amended (kvs : JsonFields) (xs : List Json)
    (now1 now2 : String) (st st1 : Store) (c u p : Nat)
    (hiter : pyIterate (jgetD kvs "items" (Json.arr JsonList.nil)) = some xs)
    (hobj : ∀ x ∈ xs, ∃ fs, x = Json.obj fs ∧ pyTruthy (jget fs "external_id") = true)
    (hfet : pyTruthy (jget kvs "fetched_at") = true)
    (hrun : ingestPayload (Json.obj kvs) now1 st = (Resp.accepted c u p, st1)) :
    ∃ st2, ingestPayload (Json.obj kvs) now2 st1
        = (Resp.accepted 0 xs.length p, st2) ∧
      st2.pricePoints = st1.pricePoints := by
  obtain ⟨xs2, hit2, hpr⟩ := ingestPayload_accepted_inv hrun
  rw [hiter] at hit2
  injection hit2 with h2
  subst h2
  rw [if_pos hfet] at hpr
  have hready := processItems_ready xs st 0 0 0 st1 c u p hpr hobj
  obtain ⟨st2, hrep, hpp2⟩ := processItems_replay xs st1 0 0 0 hready
  have hp : p = eligCount xs := by
    have h3 := (processItems_counts (jgetD kvs "source" (Json.str "avito"))
      (jget kvs "target_id") (jget kvs "fetched_at") now1 xs st 0 0 0 c u p st1 hpr).2.1
    simpa using h3
  refine ⟨st2, ?_, hpp2⟩
  simp only [ingestPayload, hiter]
  rw [if_pos hfet, hrep, hp]
  simp

/-- Witness for C1 amended at the spec's end-to-end example. -/
theorem claim_idempotent_amended_witness :
    ∃ st2, ingestPayload (Json.obj kvsP1) "t1" (ingestPayload pay1 "t0" store0).2
        = (Resp.accepted 0 ([Json.obj itemP1].length) 1, st2) ∧
      st2.pricePoints = (ingestPayload pay1 "t0" store0).2.pricePoints :=
  claim_idempotent_amended kvsP1 [Json.obj itemP1] "t0" "t1" store0
    (ingestPayload pay1 "t0" store0).2 1 0 1 rfl
    (fun x hx => by
      have hx2 : x = Json.obj itemP1 := by simpa using hx
      subst hx2
      exact ⟨itemP1, rfl, by decide⟩)
    (by decide) (by decide)
